import Mathlib

/-!
Shallow embedding of `src/xprintidle.py` (the fuck-xprintidle tool).

The program talks to the X server through seven foreign calls
(open-connection, close-connection, default-root-window,
query-extension-capability, allocate-status-buffer, query-status,
free-buffer).  We model the external world as an `XEnv` record fixing the
outcome of each foreign call, and each embedded function returns, besides
its value, the list of diagnostic lines it printed to standard error and
the trace of foreign calls it issued.  Standard output is modelled as the
full text written (each Python `print s` appends `s ++ "\n"`), so that
line counts are the number of newline characters.
-/

namespace Xprintidle

/-- Outcome of the external X world: whether the screensaver extension is
supported by the server, whether each fallible foreign call succeeds, and
the idle value the server would report. -/
structure XEnv where
  extensionSupported : Bool
  openDisplaySucceeds : Bool
  allocSucceeds : Bool
  querySucceeds : Bool
  idleValue : Nat
deriving DecidableEq

/-- The foreign calls the program can issue against the X libraries. -/
inductive XCall where
  | openDisplay
  | closeDisplay
  | defaultRootWindow
  | queryExtension
  | allocInfo
  | queryInfo
  | free
deriving DecidableEq

/-- Result of `get_x_idletime`: the returned value (`-1` on failure, the
idle time otherwise), the diagnostic lines printed to standard error, and
the trace of foreign calls issued, in order. -/
structure GxResult where
  ret : Int
  stderr : List String
  calls : List XCall
deriving DecidableEq

/-- Embedding of `get_x_idletime` (src/xprintidle.py lines 72-125).
The Python code opens the display, allocates the screensaver info buffer,
resolves the root window, queries the screensaver info, reads `idle`, then
frees the buffer and closes the display; each failure prints one
diagnostic and returns `-1` after releasing what was acquired.  Note the
source issues no extension-capability query. -/
def get_x_idletime (env : XEnv) : GxResult :=
  if !env.openDisplaySucceeds then
    ⟨-1, ["couldn\x27t open display"], [XCall.openDisplay]⟩
  else if !env.allocSucceeds then
    ⟨-1, ["couldn\x27t allocate screen saver info"],
      [XCall.openDisplay, XCall.allocInfo, XCall.closeDisplay]⟩
  else if !env.querySucceeds then
    ⟨-1, ["couldn\x27t query screen saver info"],
      [XCall.openDisplay, XCall.allocInfo, XCall.defaultRootWindow,
        XCall.queryInfo, XCall.free, XCall.closeDisplay]⟩
  else
    ⟨(env.idleValue : Int), [],
      [XCall.openDisplay, XCall.allocInfo, XCall.defaultRootWindow,
        XCall.queryInfo, XCall.free, XCall.closeDisplay]⟩

/-- The `conv_facs` table (src/xprintidle.py line 128). -/
def conv_facs : List Nat := [24 * 60 * 60 * 1000, 60 * 60 * 1000, 60 * 1000, 1000, 1]

/-- The `names` table (src/xprintidle.py line 129). -/
def names : List String := ["day", "hour", "minute", "second", "millisecond"]

/-- One emitted term of the human-readable decomposition: its magnitude,
the unit size in milliseconds, and the unit name. -/
structure HTerm where
  mag : Nat
  fac : Nat
  name : String
deriving DecidableEq

/-- Result of `print_human_time`: the text written to standard output
before the final newline, the list of emitted terms (ghost data recording
each loop iteration that printed), and the final value of `first_print`. -/
structure HumanOut where
  out : String
  terms : List HTerm
  firstPrint : Bool
deriving DecidableEq

/-- The loop of `print_human_time` (src/xprintidle.py lines 131-145),
iterating over the zipped `(conv_facs, names)` table with the running
remainder `t`, the `first_print` flag, the output accumulated so far, and
the terms emitted so far. -/
def humanLoop : List (Nat × String) → Nat → Bool → String → List HTerm → HumanOut
  | [], _, first, acc, ts => ⟨acc, ts, first⟩
  | (fac, nm) :: rest, t, first, acc, ts =>
    if t / fac = 0 then
      humanLoop rest (t % fac) first acc ts
    else
      humanLoop rest (t % fac) false
        (acc ++ (if first then "" else ", ") ++ Nat.repr (t / fac) ++ " " ++ nm ++
          (if t / fac ≠ 1 then "s" else ""))
        (ts ++ [⟨t / fac, fac, nm⟩])

/-- Embedding of `print_human_time` (src/xprintidle.py lines 127-150):
run the loop, then if nothing was printed emit `"0 <last name>s"`
(the Python `f"0 {names[-1]}s"`).  The trailing `print()` newline is added
by `main`. -/
def print_human_time (time_ms : Nat) : HumanOut :=
  let r := humanLoop (conv_facs.zip names) time_ms true "" []
  if r.firstPrint then
    ⟨r.out ++ "0 " ++ names.getLastD "" ++ "s", r.terms, r.firstPrint⟩
  else r

/-- The decomposition the loop computes, as a pure recursion: walk the
unit table, divide, reduce by the remainder, and keep the terms with a
non-zero magnitude. -/
def termsOf : List (Nat × String) → Nat → List HTerm
  | [], _ => []
  | (fac, nm) :: rest, t =>
    if t / fac = 0 then termsOf rest (t % fac)
    else ⟨t / fac, fac, nm⟩ :: termsOf rest (t % fac)

/-- Rendering of one emitted term, following the spec of 4.3: the
magnitude, a space, the unit name, and a trailing "s" exactly when the
magnitude differs from 1. -/
def renderTerm (x : HTerm) : String :=
  Nat.repr x.mag ++ " " ++ x.name ++ (if x.mag ≠ 1 then "s" else "")

/-- Rendering of the non-leading terms, each preceded by the
literal ", " separator. -/
def renderTail : List HTerm → String
  | [] => ""
  | x :: rest => ", " ++ renderTerm x ++ renderTail rest

/-- Rendering of a term list per the spec of 4.3: terms joined by ", "
with no trailing separator. -/
def renderAll : List HTerm → String
  | [] => ""
  | x :: rest => renderTerm x ++ renderTail rest

lemma humanLoop_false (L : List (Nat × String)) :
    ∀ t acc ts, humanLoop L t false acc ts =
      ⟨acc ++ renderTail (termsOf L t), ts ++ termsOf L t, false⟩ := by
  induction L with
  | nil => intro t acc ts; simp [humanLoop, termsOf, renderTail]
  | cons p rest ih =>
    obtain ⟨fac, nm⟩ := p
    intro t acc ts
    by_cases h : t / fac = 0
    · simp [humanLoop, termsOf, h, ih]
    · simp [humanLoop, termsOf, h, ih, renderTail, renderTerm, String.append_assoc]

lemma humanLoop_true (L : List (Nat × String)) :
    ∀ t acc ts, humanLoop L t true acc ts =
      ⟨acc ++ renderAll (termsOf L t), ts ++ termsOf L t, (termsOf L t).isEmpty⟩ := by
  induction L with
  | nil => intro t acc ts; simp [humanLoop, termsOf, renderAll]
  | cons p rest ih =>
    obtain ⟨fac, nm⟩ := p
    intro t acc ts
    by_cases h : t / fac = 0
    · simp [humanLoop, termsOf, h, ih]
    · simp [humanLoop, termsOf, h, humanLoop_false, renderAll, renderTerm,
        String.append_assoc]

/-- Characterisation of `print_human_time` by the declarative decomposition: the
output is the fallback string when no term is emitted, and the ", "-joined
rendering of the emitted terms otherwise. -/
lemma print_human_time_eq (m : Nat) :
    print_human_time m =
      if termsOf (conv_facs.zip names) m = [] then
        ⟨"0 milliseconds", [], true⟩
      else
        ⟨renderAll (termsOf (conv_facs.zip names) m),
          termsOf (conv_facs.zip names) m, false⟩ := by
  by_cases h : termsOf (conv_facs.zip names) m = []
  · simp [print_human_time, humanLoop_true, h, renderAll]
    rfl
  · simp [print_human_time, humanLoop_true, h]

/-- Milliseconds reconstructed from a term list: the sum over the terms of
magnitude times unit size. -/
def sumTerms (ts : List HTerm) : Nat := (ts.map (fun x => x.mag * x.fac)).sum

/-- The remainder left after reducing `t` through every unit of a table. -/
def residue (L : List (Nat × String)) (t : Nat) : Nat :=
  L.foldl (fun a p => a % p.1) t

lemma sumTerms_cons (x : HTerm) (ts : List HTerm) :
    sumTerms (x :: ts) = x.mag * x.fac + sumTerms ts := by
  simp [sumTerms]

lemma termsOf_sum (L : List (Nat × String)) :
    ∀ t, sumTerms (termsOf L t) + residue L t = t := by
  induction L with
  | nil => intro t; simp [termsOf, sumTerms, residue]
  | cons p rest ih =>
    obtain ⟨fac, nm⟩ := p
    intro t
    have hres : residue ((fac, nm) :: rest) t = residue rest (t % fac) := rfl
    have hdm2 : t / fac * fac + t % fac = t := by
      have hdm := Nat.div_add_mod t fac
      rw [Nat.mul_comm fac (t / fac)] at hdm
      exact hdm
    by_cases h : t / fac = 0
    · have ht : t % fac = t := by
        rw [h, Nat.zero_mul, Nat.zero_add] at hdm2
        exact hdm2
      simp only [termsOf, if_pos h, hres, ht, ih]
    · simp only [termsOf, if_neg h, hres, sumTerms_cons]
      show t / fac * fac + sumTerms (termsOf rest (t % fac)) + residue rest (t % fac) = t
      rw [Nat.add_assoc, ih]
      exact hdm2

lemma residue_units (m : Nat) : residue (conv_facs.zip names) m = 0 := by
  simp [residue, conv_facs, names, Nat.mod_one]

lemma termsOf_units_eq_nil (m : Nat)
    (h : termsOf (conv_facs.zip names) m = []) : m = 0 := by
  have hsum := termsOf_sum (conv_facs.zip names) m
  rw [h, residue_units] at hsum
  simpa [sumTerms] using hsum.symm

lemma termsOf_mag_ne_zero (L : List (Nat × String)) :
    ∀ t x, x ∈ termsOf L t → x.mag ≠ 0 := by
  induction L with
  | nil => intro t x hx; simp [termsOf] at hx
  | cons p rest ih =>
    obtain ⟨fac, nm⟩ := p
    intro t x hx
    by_cases h : t / fac = 0
    · exact ih (t % fac) x (by simpa [termsOf, h] using hx)
    · have hx2 : x = ⟨t / fac, fac, nm⟩ ∨ x ∈ termsOf rest (t % fac) := by
        simpa [termsOf, h] using hx
      rcases hx2 with h1 | h1
      · subst h1; simpa using h
      · exact ih (t % fac) x h1

/-- C4: for every non-negative integer `m`, the decomposition emitted by
the human-readable formatter is lossless: the sum over all emitted terms
of magnitude times the unit size in milliseconds equals `m` exactly. -/
theorem human_decomposition_lossless (m : Nat) :
    sumTerms (print_human_time m).terms = m := by
  have hsum := termsOf_sum (conv_facs.zip names) m
  rw [residue_units] at hsum
  by_cases hT : termsOf (conv_facs.zip names) m = []
  · rw [print_human_time_eq m, if_pos hT]
    rw [hT] at hsum
    simpa [sumTerms] using hsum
  · rw [print_human_time_eq m, if_neg hT]
    simpa using hsum

/-- C7: the human-readable formatter never emits a term whose magnitude is
zero: a unit with zero magnitude is skipped entirely. -/
theorem no_zero_magnitude_terms (m : Nat) (x : HTerm)
    (hx : x ∈ (print_human_time m).terms) : x.mag ≠ 0 := by
  by_cases hT : termsOf (conv_facs.zip names) m = []
  · rw [print_human_time_eq m, if_pos hT] at hx
    simp at hx
  · rw [print_human_time_eq m, if_neg hT] at hx
    exact termsOf_mag_ne_zero (conv_facs.zip names) m x hx

theorem no_zero_magnitude_terms_witness :
    (⟨1, 1, "millisecond"⟩ : HTerm) ∈ (print_human_time 1).terms ∧
      (⟨1, 1, "millisecond"⟩ : HTerm).mag ≠ 0 :=
  ⟨by decide, no_zero_magnitude_terms 1 ⟨1, 1, "millisecond"⟩ (by decide)⟩

/-- C9: on input 0 the human-readable formatter emits exactly
`"0 milliseconds"`, not the empty string. -/
theorem format_zero_outputs_zero_milliseconds :
    (print_human_time 0).out = "0 milliseconds" ∧ (print_human_time 0).out ≠ "" := by
  constructor
  · rfl
  · decide

/-- C8: every emitted term renders as `"<magnitude> <unit-name>"` with a
trailing "s" exactly when the magnitude differs from 1 — the whole output
is the ", "-join of such renderings whenever at least one term is emitted
— and in particular inputs 1, 2000 and 90061001 give `"1 millisecond"`,
`"2 seconds"` and
`"1 day, 1 hour, 1 minute, 1 second, 1 millisecond"`. -/
theorem human_term_rendering :
    (∀ m, 0 < m → (print_human_time m).out = renderAll (print_human_time m).terms) ∧
    (print_human_time 1).out = "1 millisecond" ∧
    (print_human_time 2000).out = "2 seconds" ∧
    (print_human_time 90061001).out =
      "1 day, 1 hour, 1 minute, 1 second, 1 millisecond" := by
  refine ⟨?_, by decide, by decide, by decide⟩
  intro m hm
  by_cases hT : termsOf (conv_facs.zip names) m = []
  · exact absurd (termsOf_units_eq_nil m hT) (by omega)
  · rw [print_human_time_eq m, if_neg hT]

theorem human_term_rendering_witness :
    0 < 90000 ∧ (print_human_time 90000).out = renderAll (print_human_time 90000).terms :=
  ⟨by decide, human_term_rendering.1 90000 (by decide)⟩

/-- C1 counterexample: in a world where the screensaver extension is
unsupported but every issued call succeeds, `get_x_idletime` performs no
extension-capability query at all, succeeds (returning the idle value 5),
and prints nothing to standard error — contradicting the claim that it
negotiates the extension and fails with the
`screen saver extension not supported` diagnostic when unsupported. -/
theorem extension_negotiation_counterexample :
    (get_x_idletime ⟨false, true, true, true, 5⟩).ret = 5 ∧
    (get_x_idletime ⟨false, true, true, true, 5⟩).stderr = [] ∧
    XCall.queryExtension ∉ (get_x_idletime ⟨false, true, true, true, 5⟩).calls := by
  decide

/-- C1 amended: `get_x_idletime` performs no extension-presence
negotiation whatsoever: under every environment it never issues the
capability query and never prints
`screen saver extension not supported`; it proceeds directly from opening
the display to allocating the info buffer. -/
theorem no_extension_negotiation (env : XEnv) :
    XCall.queryExtension ∉ (get_x_idletime env).calls ∧
    "screen saver extension not supported" ∉ (get_x_idletime env).stderr := by
  obtain ⟨e, o, a, q, i⟩ := env
  cases o <;> cases a <;> cases q <;> simp [get_x_idletime]

/-- C2: on every exit path of `get_x_idletime`, each successfully acquired
resource is released exactly once and no unacquired resource is released:
the display is closed exactly when `XOpenDisplay` succeeded, and the
buffer is freed exactly when the allocation was reached and succeeded. -/
theorem resource_cleanup_balanced (env : XEnv) :
    (get_x_idletime env).calls.count XCall.openDisplay = 1 ∧
    (get_x_idletime env).calls.count XCall.closeDisplay =
      (if env.openDisplaySucceeds then 1 else 0) ∧
    (get_x_idletime env).calls.count XCall.allocInfo =
      (if env.openDisplaySucceeds then 1 else 0) ∧
    (get_x_idletime env).calls.count XCall.free =
      (if env.openDisplaySucceeds && env.allocSucceeds then 1 else 0) := by
  obtain ⟨e, o, a, q, i⟩ := env
  cases o <;> cases a <;> cases q <;> simp [get_x_idletime]

/-- Python `print(s)`: the text written to standard output, i.e. `s`
followed by a newline. -/
def pyPrint (s : String) : String := s ++ "\n"

/-- Embedding of `print_usage` (src/xprintidle.py lines 60-67): the full
text the seven `print` calls write to standard output, given
`sys.argv[0]`. -/
def print_usage (argv0 : String) : String :=
  pyPrint ("usage: " ++ argv0 ++ " [OPTION]") ++
  pyPrint "Query the X server for the user\x27s idle time" ++
  pyPrint "\nOptions:" ++
  pyPrint "  -h, --help              Show this text" ++
  pyPrint "  -H, --human-readable    Output the time in a human readable format" ++
  pyPrint "  -v, --version           Print the program version" ++
  pyPrint "\nReport bugs at: https://github.com/g0hl1n/xprintidle/issues"

/-- Embedding of `print_version` (src/xprintidle.py lines 69-70). -/
def print_version : String := pyPrint "xprintidle n/a"

/-- Outcome of `parse_args`: either `sys.exit(code)` after writing `out`
to standard output, or continue with the `human_readable` flag. -/
inductive ParseOutcome where
  | exitWith (code : Nat) (out : String)
  | run (human_readable : Bool)
deriving DecidableEq

/-- Embedding of `parse_args` (src/xprintidle.py lines 47-58): only
`sys.argv[1]` is inspected, when present. -/
def parse_args : List String → ParseOutcome
  | a0 :: a1 :: _ =>
    if a1 = "-h" ∨ a1 = "--help" then ParseOutcome.exitWith 1 (print_usage a0)
    else if a1 = "-v" ∨ a1 = "--version" then ParseOutcome.exitWith 0 print_version
    else if a1 = "-H" ∨ a1 = "--human-readable" then ParseOutcome.run true
    else ParseOutcome.run false
  | _ => ParseOutcome.run false

/-- Observable outcome of one program invocation: exit status, full
standard-output text, standard-error lines, and foreign calls issued. -/
structure ProgOut where
  exitCode : Nat
  stdout : String
  stderr : List String
  calls : List XCall
deriving DecidableEq

/-- Embedding of `main` (src/xprintidle.py lines 152-162), given the
command line `argv` (`sys.argv`, program name included) and the external
world `env`. -/
def main (argv : List String) (env : XEnv) : ProgOut :=
  match parse_args argv with
  | ParseOutcome.exitWith c out => ⟨c, out, [], []⟩
  | ParseOutcome.run human_readable =>
    let r := get_x_idletime env
    if r.ret = -1 then ⟨1, "", r.stderr, r.calls⟩
    else if human_readable then
      ⟨0, (print_human_time r.ret.toNat).out ++ "\n", r.stderr, r.calls⟩
    else ⟨0, pyPrint (Nat.repr r.ret.toNat), r.stderr, r.calls⟩

/-- Number of lines in a piece of standard-output text: since every
`print` call terminates its output with a newline, this is the number of
newline characters. -/
def countLines (s : String) : Nat := s.data.count '\n'

/-- C3: when the connector fails (display cannot be opened) on any
invocation that reaches the query, the program exits with status 1, prints
exactly the one diagnostic line `couldn't open display` to standard error,
and prints zero lines to standard output. -/
theorem display_failure_behavior (argv : List String) (env : XEnv) (hr : Bool)
    (hp : parse_args argv = ParseOutcome.run hr)
    (ho : env.openDisplaySucceeds = false) :
    (main argv env).exitCode = 1 ∧
    (main argv env).stderr = ["couldn\x27t open display"] ∧
    countLines (main argv env).stdout = 0 := by
  simp [main, hp, get_x_idletime, ho, countLines]

theorem display_failure_behavior_witness :
    (main ["xprintidle"] ⟨true, false, true, true, 0⟩).exitCode = 1 ∧
    (main ["xprintidle"] ⟨true, false, true, true, 0⟩).stderr =
      ["couldn\x27t open display"] ∧
    countLines (main ["xprintidle"] ⟨true, false, true, true, 0⟩).stdout = 0 :=
  display_failure_behavior ["xprintidle"] ⟨true, false, true, true, 0⟩ false rfl rfl

/-- C6: with first argument `-h` or `--help` the program prints the usage
text to standard output and exits with status 1 without issuing any
foreign call; with `-v` or `--version` it prints the version string and
exits with status 0, likewise without querying. -/
theorem help_version_no_query (a0 : String) (rest : List String) (env : XEnv) :
    main (a0 :: "-h" :: rest) env = ⟨1, print_usage a0, [], []⟩ ∧
    main (a0 :: "--help" :: rest) env = ⟨1, print_usage a0, [], []⟩ ∧
    main (a0 :: "-v" :: rest) env = ⟨0, print_version, [], []⟩ ∧
    main (a0 :: "--version" :: rest) env = ⟨0, print_version, [], []⟩ := by
  refine ⟨?_, ?_, ?_, ?_⟩ <;> simp [main, parse_args]

/-- C10: argument parsing inspects only the first argument: whenever
`argv[1]` is none of the six recognized flags, the program behaves exactly
as if invoked with no arguments, whatever further arguments follow. -/
theorem first_argument_only (a0 a1 : String) (rest : List String) (env : XEnv)
    (h : a1 ∉ (["-h", "--help", "-v", "--version", "-H", "--human-readable"] :
      List String)) :
    main (a0 :: a1 :: rest) env = main [a0] env := by
  simp only [List.mem_cons, List.mem_singleton, not_or] at h
  obtain ⟨h1, h2, h3, h4, h5, h6⟩ := h
  simp [main, parse_args, h1, h2, h3, h4, h5, h6]

theorem first_argument_only_witness :
    ("-x" ∉ (["-h", "--help", "-v", "--version", "-H", "--human-readable"] :
      List String)) ∧
    main ["xprintidle", "-x", "7"] ⟨true, true, true, true, 42⟩ =
      main ["xprintidle"] ⟨true, true, true, true, 42⟩ :=
  ⟨by decide,
    first_argument_only "xprintidle" "-x" ["7"] ⟨true, true, true, true, 42⟩ (by decide)⟩

lemma countLines_append (a b : String) :
    countLines (a ++ b) = countLines a + countLines b := by
  simp [countLines, String.data_append, List.count_append]

lemma countLines_newline : countLines "\n" = 1 := by decide

lemma digitChar_ne_newline : ∀ m : Nat, m < 10 → Nat.digitChar m ≠ '\n' := by
  decide

lemma toDigitsCore_no_newline :
    ∀ (f n : Nat) (acc : List Char), (∀ c ∈ acc, c ≠ '\n') →
      ∀ c ∈ Nat.toDigitsCore 10 f n acc, c ≠ '\n' := by
  intro f
  induction f with
  | zero => intro n acc h; simpa [Nat.toDigitsCore] using h
  | succ f ih =>
    intro n acc h c hc
    simp only [Nat.toDigitsCore] at hc
    by_cases h10 : n / 10 = 0
    · rw [if_pos h10] at hc
      rcases List.mem_cons.mp hc with h1 | h1
      · subst h1; exact digitChar_ne_newline _ (Nat.mod_lt n (by omega))
      · exact h c h1
    · rw [if_neg h10] at hc
      refine ih (n / 10) (Nat.digitChar (n % 10) :: acc) ?_ c hc
      intro d hd
      rcases List.mem_cons.mp hd with h1 | h1
      · subst h1; exact digitChar_ne_newline _ (Nat.mod_lt n (by omega))
      · exact h d h1

lemma repr_no_newline (n : Nat) : countLines (Nat.repr n) = 0 := by
  have h : ∀ c ∈ (Nat.repr n).data, c ≠ '\n' := by
    have hdata : (Nat.repr n).data = Nat.toDigitsCore 10 (n + 1) n [] := rfl
    rw [hdata]
    exact toDigitsCore_no_newline (n + 1) n [] (by intro c hc; simp at hc)
  unfold countLines
  rw [List.count_eq_zero]
  intro hmem
  exact h '\n' hmem rfl

lemma termsOf_mem_table (L : List (Nat × String)) :
    ∀ t x, x ∈ termsOf L t → (x.fac, x.name) ∈ L := by
  induction L with
  | nil => intro t x hx; simp [termsOf] at hx
  | cons p rest ih =>
    obtain ⟨fac, nm⟩ := p
    intro t x hx
    by_cases h : t / fac = 0
    · exact List.mem_cons_of_mem _ (ih (t % fac) x (by simpa [termsOf, h] using hx))
    · have hx2 : x = ⟨t / fac, fac, nm⟩ ∨ x ∈ termsOf rest (t % fac) := by
        simpa [termsOf, h] using hx
      rcases hx2 with h1 | h1
      · subst h1; simp
      · exact List.mem_cons_of_mem _ (ih (t % fac) x h1)

lemma renderTerm_no_newline (x : HTerm) (h : countLines x.name = 0) :
    countLines (renderTerm x) = 0 := by
  have hsp : countLines " " = 0 := by decide
  have hs : countLines "s" = 0 := by decide
  have he : countLines "" = 0 := by decide
  by_cases h1 : x.mag ≠ 1 <;>
    simp [renderTerm, h1, countLines_append, repr_no_newline, h, hsp, hs, he]

lemma renderTail_no_newline (ts : List HTerm)
    (h : ∀ x ∈ ts, countLines x.name = 0) : countLines (renderTail ts) = 0 := by
  induction ts with
  | nil => decide
  | cons x rest ih =>
    have hc : countLines ", " = 0 := by decide
    simp [renderTail, countLines_append, hc,
      renderTerm_no_newline x (h x (by simp)),
      ih (fun y hy => h y (by simp [hy]))]

lemma renderAll_no_newline (ts : List HTerm)
    (h : ∀ x ∈ ts, countLines x.name = 0) : countLines (renderAll ts) = 0 := by
  cases ts with
  | nil => decide
  | cons x rest =>
    simp [renderAll, countLines_append,
      renderTerm_no_newline x (h x (by simp)),
      renderTail_no_newline rest (fun y hy => h y (by simp [hy]))]

lemma human_out_no_newline (m : Nat) : countLines (print_human_time m).out = 0 := by
  by_cases hT : termsOf (conv_facs.zip names) m = []
  · rw [print_human_time_eq m, if_pos hT]; decide
  · rw [print_human_time_eq m, if_neg hT]
    apply renderAll_no_newline
    intro x hx
    have hmem := termsOf_mem_table (conv_facs.zip names) m x hx
    have hname : x.name = "day" ∨ x.name = "hour" ∨ x.name = "minute" ∨
        x.name = "second" ∨ x.name = "millisecond" := by
      simp [conv_facs, names] at hmem
      tauto
    rcases hname with h | h | h | h | h <;> rw [h] <;> decide

lemma countLines_usage (a0 : String) :
    countLines (print_usage a0) = 9 + countLines a0 := by
  have h1 : countLines "usage: " = 0 := by decide
  have h2 : countLines " [OPTION]" = 0 := by decide
  have h3 : countLines "Query the X server for the user\x27s idle time" = 0 := by decide
  have h4 : countLines "\nOptions:" = 1 := by decide
  have h5 : countLines "  -h, --help              Show this text" = 0 := by decide
  have h6 : countLines "  -H, --human-readable    Output the time in a human readable format" = 0 := by
    decide
  have h7 : countLines "  -v, --version           Print the program version" = 0 := by decide
  have h8 : countLines "\nReport bugs at: https://github.com/g0hl1n/xprintidle/issues" = 1 := by
    decide
  simp only [print_usage, pyPrint, countLines_append, h1, h2, h3, h4, h5, h6, h7, h8,
    countLines_newline]
  omega

/-- C5 counterexample: a help invocation writes 9 lines, not exactly one,
to standard output. -/
theorem usage_single_line_counterexample :
    countLines (main ["xprintidle", "-h"] ⟨true, true, true, true, 0⟩).stdout = 9 ∧
    countLines (main ["xprintidle", "-h"] ⟨true, true, true, true, 0⟩).stdout ≠ 1 := by
  have h : (main ["xprintidle", "-h"] ⟨true, true, true, true, 0⟩).stdout =
      print_usage "xprintidle" := by
    simp [main, parse_args]
  have h0 : countLines "xprintidle" = 0 := by decide
  constructor
  · rw [h, countLines_usage, h0]
  · rw [h, countLines_usage, h0]
    decide

/-- C5 amended: version invocations write exactly one line to standard
output, raw-integer and human-readable invocations write exactly one line
when the query succeeds and zero lines when it fails, but a usage (help)
invocation writes 9 lines (plus any newlines embedded in the program
name). -/
theorem stdout_line_counts (argv : List String) (env : XEnv) :
    (∀ out, parse_args argv = ParseOutcome.exitWith 0 out →
      countLines (main argv env).stdout = 1) ∧
    (∀ a0 rest, argv = a0 :: "-h" :: rest ∨ argv = a0 :: "--help" :: rest →
      countLines (main argv env).stdout = 9 + countLines a0) ∧
    (∀ hr, parse_args argv = ParseOutcome.run hr →
      countLines (main argv env).stdout =
        if env.openDisplaySucceeds && env.allocSucceeds && env.querySucceeds
        then 1 else 0) := by
  refine ⟨?_, ?_, ?_⟩
  · intro out hp
    match argv with
    | [] => simp [parse_args] at hp
    | [a0] => simp [parse_args] at hp
    | a0 :: a1 :: rest =>
      by_cases hh : a1 = "-h" ∨ a1 = "--help"
      · simp [parse_args, hh] at hp
      · by_cases hv : a1 = "-v" ∨ a1 = "--version"
        · simp [main, parse_args, hh, hv]
          decide
        · by_cases hH : a1 = "-H" ∨ a1 = "--human-readable" <;>
            simp [parse_args, hh, hv, hH] at hp
  · intro a0 rest h
    rcases h with h | h <;> subst h <;>
      simpa [main, parse_args] using countLines_usage a0
  · intro hr hp
    obtain ⟨e, o, a, q, i⟩ := env
    cases o with
    | false => simp [main, hp, get_x_idletime, countLines]
    | true =>
      cases a with
      | false => simp [main, hp, get_x_idletime, countLines]
      | true =>
        cases q with
        | false => simp [main, hp, get_x_idletime, countLines]
        | true =>
          have hne : ((i : Int)) ≠ -1 := by omega
          cases hr <;>
            simp [main, hp, get_x_idletime, hne, pyPrint, countLines_append,
              repr_no_newline, human_out_no_newline, countLines_newline]

theorem stdout_line_counts_witness :
    countLines (main ["xprintidle"] ⟨true, true, true, true, 0⟩).stdout = 1 := by
  have h := (stdout_line_counts ["xprintidle"] ⟨true, true, true, true, 0⟩).2.2 false rfl
  simpa using h

end Xprintidle
